import Mathlib

/-!
Verification of the pangLB health-check server (main.go) against its
specification.  The Go program is shallowly embedded: durations are `Int`
nanoseconds (Go `time.Duration` is an `int64` of nanoseconds), the
filesystem and the service manager are explicit oracles passed to the
checks, and the `net/http` response writer is a small state machine that
mirrors the header-snapshot behaviour of Go (headers are frozen at
`WriteHeader`; later mutations of the header map are not sent).
-/

namespace PangLB

/-- Nanoseconds per second (`time.Second`). -/
def nsPerSec : Int := 1000000000

/-- Largest `int64`, the bound Go uses in duration overflow checks. -/
def maxInt64 : Int := 9223372036854775807

/-- Smallest `int64` (`minDuration`). -/
def minInt64 : Int := -9223372036854775808

/-- Decimal digits of `v mod 10 ^ prec`, zero padded to `prec` digits, most
significant first.  Helper for the fraction printer below. -/
def goDigits : Nat → Nat → List Char
  | 0, _ => []
  | p + 1, v => goDigits p (v / 10) ++ [Char.ofNat (48 + v % 10)]

/-- Embeds `fmtFrac` from Go `time`: format the fraction (low `prec` decimal
digits) of `v`, omitting trailing zeros and omitting the decimal point when
the whole fraction is zero; returns the formatted fraction and `v` with the
fraction digits divided out.  Go prints the digits least significant first,
latching on the first nonzero digit, which is the same as dropping the
trailing zeros of the zero-padded fraction. -/
def fmtFrac (v : Nat) (prec : Nat) : String × Nat :=
  let digits := goDigits prec (v % 10 ^ prec)
  let kept := (digits.reverse.dropWhile (fun c => c == '0')).reverse
  (if kept.isEmpty then "" else String.mk ('.' :: kept), v / 10 ^ prec)

/-- Embeds `Duration.String` from Go `time`: durations below one second use
ns, µs or ms units with the fraction trimmed; durations of a second or more
are printed as `[Nh][Nm]N[.fff]s`; zero is `"0s"`; negatives get a sign. -/
def goDurationString (d : Int) : String :=
  let u := d.natAbs
  let core :=
    if u < 1000000000 then
      if u == 0 then "0s"
      else if u < 1000 then
        Nat.repr u ++ "ns"
      else if u < 1000000 then
        let fr := fmtFrac u 3
        Nat.repr fr.2 ++ fr.1 ++ "µs"
      else
        let fr := fmtFrac u 6
        Nat.repr fr.2 ++ fr.1 ++ "ms"
    else
      let fr := fmtFrac u 9
      let secPart := Nat.repr (fr.2 % 60) ++ fr.1 ++ "s"
      let m := fr.2 / 60
      if m == 0 then secPart
      else
        let minPart := Nat.repr (m % 60) ++ "m" ++ secPart
        let h := m / 60
        if h == 0 then minPart else Nat.repr h ++ "h" ++ minPart
  if d < 0 then "-" ++ core else core

/-- Embeds `Duration.Round` from Go `time`: round `d` to the nearest
multiple of `m`, halves away from zero, clamping at the `int64` bounds on
overflow (Go computes `r := d % m` with truncating division and compares
`r+r` against `m`). -/
def goRound (d m : Int) : Int :=
  if m ≤ 0 then d
  else if d < 0 then
    let r := - (Int.tmod d m)
    if r + r < m then d + r
    else if minInt64 ≤ d - m + r then d - m + r else minInt64
  else
    let r := Int.tmod d m
    if r + r < m then d - r
    else if d + m - r ≤ maxInt64 then d + m - r else maxInt64

/-- Embeds `unitMap` from Go `time.ParseDuration`: nanoseconds per unit. -/
def unitMap : String → Option Nat
  | "ns" => some 1
  | "us" => some 1000
  | "µs" => some 1000
  | "μs" => some 1000
  | "ms" => some 1000000
  | "s" => some 1000000000
  | "m" => some 60000000000
  | "h" => some 3600000000000
  | _ => none

/-- Embeds `leadingInt` from Go `time`: consume leading decimal digits into
an accumulator, failing (`none`) on `uint64`-overflow exactly where Go does
(`x > 1<<63/10` before the multiply, `x > 1<<63` after). -/
def leadingInt : List Char → Nat → Option (Nat × List Char)
  | [], x => some (x, [])
  | c :: cs, x =>
    if c.isDigit then
      if x > 922337203685477580 then none
      else
        let x2 := x * 10 + (c.toNat - 48)
        if x2 > 9223372036854775808 then none
        else leadingInt cs x2
    else some (x, c :: cs)

/-- Embeds `leadingFraction` from Go `time`: consume leading decimal digits
as a fraction numerator with its power-of-ten scale; on overflow it keeps
consuming digits without accumulating (no error). -/
def leadingFraction : List Char → Nat → Nat → Bool → Nat × Nat × List Char
  | [], x, scale, _ => (x, scale, [])
  | c :: cs, x, scale, overflow =>
    if c.isDigit then
      if overflow then leadingFraction cs x scale overflow
      else if x > 922337203685477580 then leadingFraction cs x scale true
      else
        let y := x * 10 + (c.toNat - 48)
        if y > 9223372036854775808 then leadingFraction cs x scale true
        else leadingFraction cs y (scale * 10) overflow
    else (x, scale, c :: cs)

/-- Main loop of Go `time.ParseDuration`: repeatedly parse
`[0-9]*(\.[0-9]*)?unit` terms and accumulate their nanosecond values,
failing on a malformed term or on `uint64` overflow.  Each iteration
consumes at least the unit characters, so fuel `length + 1` always
suffices; the fuel-exhausted branch is unreachable.  Where Go converts the
fraction through `float64` (`f * unit / scale`) we use exact natural
division; no claim depends on the value of a fractional parse. -/
def parseDurLoop : Nat → List Char → Nat → Option Nat
  | 0, _, _ => none
  | _ + 1, [], d => some d
  | fuel + 1, c :: cs, d =>
    if ¬ (c == '.' || c.isDigit) then none
    else
      match leadingInt (c :: cs) 0 with
      | none => none
      | some (v, s1) =>
        let pre : Bool := s1.length != (c :: cs).length
        let fracStep :=
          match s1 with
          | '.' :: rest =>
            let fr := leadingFraction rest 0 1 false
            (fr.1, fr.2.1, fr.2.2, (fr.2.2.length != rest.length : Bool))
          | _ => (0, 1, s1, false)
        let f := fracStep.1
        let scale := fracStep.2.1
        let s2 := fracStep.2.2.1
        let post := fracStep.2.2.2
        if pre = false ∧ post = false then none
        else
          let unitChars := s2.takeWhile (fun ch => ¬ (ch == '.' || ch.isDigit))
          let s3 := s2.dropWhile (fun ch => ¬ (ch == '.' || ch.isDigit))
          if unitChars.isEmpty then none
          else
            match unitMap (String.mk unitChars) with
            | none => none
            | some unit =>
              if v > 9223372036854775808 / unit then none
              else
                let v1 := v * unit
                let vRes : Option Nat :=
                  if f > 0 then
                    let v2 := v1 + f * unit / scale
                    if v2 > 9223372036854775808 then none else some v2
                  else some v1
                match vRes with
                | none => none
                | some v2 =>
                  let d2 := d + v2
                  if d2 > 9223372036854775808 then none
                  else parseDurLoop fuel s3 d2

/-- Embeds Go `time.ParseDuration`: optional sign, the special case `"0"`,
then one or more number-unit terms; `none` is the error case. -/
def goParseDuration (s : String) : Option Int :=
  let l := s.toList
  let signStep :=
    match l with
    | '-' :: rest => (true, rest)
    | '+' :: rest => (false, rest)
    | _ => (false, l)
  let neg := signStep.1
  let l1 := signStep.2
  if l1 = ['0'] then some 0
  else if l1.isEmpty then none
  else
    match parseDurLoop (l1.length + 1) l1 0 with
    | none => none
    | some d =>
      if neg then some (- (d : Int))
      else if d > 9223372036854775807 then none
      else some (d : Int)

/-- Process environment: Go `os.Getenv` returns the empty string for an
unset variable, so an environment is a total map to strings. -/
abbrev Env := String → String

/-- Embeds `getenv` from main.go: the variable when nonempty, else the
default. -/
def getenv (env : Env) (k d : String) : String :=
  if env k ≠ "" then env k else d

/-- Embeds `parseDurationEnv` from main.go: the default when the variable
is unset, the default again when it fails to parse, otherwise the parsed
duration. -/
def parseDurationEnv (env : Env) (k : String) (d : Int) : Int :=
  let v := env k
  if v = "" then d
  else
    match goParseDuration v with
    | none => d
    | some dd => dd

/-- Whitespace as `unicode.IsSpace` sees it, restricted to the Latin-1
range Go special-cases (space, tab, newline, vertical tab, form feed,
carriage return, NEL, NBSP). -/
def goIsSpace (c : Char) : Bool :=
  c == ' ' || c == '\t' || c == '\n' || c == '\x0b' || c == '\x0c' || c == '\r'
    || c == '\x85' || c == '\xa0'

/-- Embeds `strings.ToLower` on the ASCII range (env values in scope are
ASCII): lowercase every character. -/
def goToLower (s : String) : String :=
  String.mk (s.toList.map Char.toLower)

/-- Embeds `strings.TrimSpace`: drop leading and trailing whitespace. -/
def goTrimSpace (s : String) : String :=
  String.mk (((s.toList.dropWhile goIsSpace).reverse.dropWhile goIsSpace).reverse)

/-- Embeds `parseBoolEnv` from main.go: lowercase, trim, empty means the
default, and exactly `1`, `true`, `yes`, `on` mean true. -/
def parseBoolEnv (env : Env) (k : String) (d : Bool) : Bool :=
  let v := goTrimSpace (goToLower (env k))
  if v = "" then d
  else v == "1" || v == "true" || v == "yes" || v == "on"

/-- Error from the stat oracle: Go distinguishes only `os.IsNotExist` from
every other stat error, which carries its message. -/
inductive StatError where
  | notExist : StatError
  | other : String → StatError
deriving DecidableEq

/-- The slice of `os.FileInfo` the program reads: `IsDir` and `ModTime`
(nanoseconds since the epoch). -/
structure FileInfo where
  isDir : Bool
  modTime : Int
deriving DecidableEq

/-- Filesystem oracle: the outcome of `os.Stat` at each path. -/
abbrev FileSystem := String → Except StatError FileInfo

/-- Embeds `checkHealthFile` from main.go, with the filesystem and the
current instant (`time.Since` is `now - ModTime`) as explicit oracles. -/
def checkHealthFile (fs : FileSystem) (now : Int) (path : String) (maxAge : Int) : Bool × String :=
  match fs path with
  | .error .notExist => (false, "health file missing")
  | .error (.other e) => (false, "stat error: " ++ e)
  | .ok fi =>
    if fi.isDir then (false, "health file path is a directory")
    else if 0 < maxAge then
      let age := now - fi.modTime
      if maxAge < age then
        (false, "health file too old: " ++ goDurationString (goRound age nsPerSec)
          ++ " > " ++ goDurationString maxAge)
      else (true, "present")
    else (true, "present")

/-- Outcome of one `systemctl is-active --quiet` invocation: the error from
`cmd.Run` (`none` for exit code 0) and whether the context deadline was
exceeded. -/
structure SysOutcome where
  runError : Option String
  deadlineExceeded : Bool
deriving DecidableEq

/-- Service-manager oracle: the outcome of querying a unit with a
timeout. -/
abbrev SystemdWorld := String → Int → SysOutcome

/-- Embeds `checkSystemd` from main.go: exit code 0 means active; otherwise
a deadline-exceeded context means timeout, and every other failure is
reported as not active. -/
def checkSystemd (world : SystemdWorld) (unit : String) (timeout : Int) : Bool × String :=
  let o := world unit timeout
  match o.runError with
  | none => (true, "active")
  | some _ =>
    if o.deadlineExceeded then (false, "systemctl timeout")
    else (false, "not active")

/-- Update an association list at a key, mirroring assignment into a Go
map (and `Header().Set`): replace the first binding or append a new one. -/
def assocSet {α β : Type} [BEq α] (k : α) (v : β) : List (α × β) → List (α × β)
  | [] => [(k, v)]
  | (k2, v2) :: rest => if k2 == k then (k, v) :: rest else (k2, v2) :: assocSet k v rest

/-- Decidable substring test, used to state what a diagnostic message
contains. -/
def subOccurs (pat : List Char) : List Char → Bool
  | [] => pat.isEmpty
  | c :: cs => pat.isPrefixOf (c :: cs) || subOccurs pat cs

/-- String form of the substring test. -/
def strContains (s pat : String) : Bool :=
  subOccurs pat.toList s.toList

/-- The per-check JSON entry (`CheckDetail` in main.go). -/
structure CheckDetail where
  ok : Bool
  message : String
deriving DecidableEq

/-- The health verdict (`Result` in main.go).  `Now` is `time.Now().UTC()`;
it is kept here as its serialized form, opaque to every claim.  The checks
map is the association list of its insertions. -/
structure Result where
  ok : Bool
  now : String
  checks : List (String × CheckDetail)
deriving DecidableEq

/-- JSON encoding of a `CheckDetail` as `encoding/json` renders it
(`message` carries `omitempty`; the modelled messages need no escaping). -/
def encodeCheckDetail (c : CheckDetail) : String :=
  "\x7b\"ok\":" ++ (if c.ok then "true" else "false")
    ++ (if c.message = "" then "" else ",\"message\":\"" ++ c.message ++ "\"")
    ++ "\x7d"

/-- JSON encoding of the checks map.  `encoding/json` sorts map keys; the
handler inserts `newt_health_file` before `systemd`, already in sorted
order, so encoding in insertion order agrees with Go. -/
def encodeChecks (cs : List (String × CheckDetail)) : String :=
  "\x7b" ++ String.intercalate ","
      (cs.map (fun p => "\"" ++ p.1 ++ "\":" ++ encodeCheckDetail p.2))
    ++ "\x7d"

/-- JSON encoding of the verdict, struct fields in declaration order, plus
the newline `json.Encoder.Encode` appends. -/
def encodeResult (r : Result) : String :=
  "\x7b\"ok\":" ++ (if r.ok then "true" else "false")
    ++ ",\"now\":\"" ++ r.now ++ "\",\"checks\":" ++ encodeChecks r.checks ++ "\x7d\n"

/-- The `net/http` response writer, shallowly: `headers` is the live
header map (`w.Header()`), and at the first `WriteHeader` the status and a
snapshot of the live headers are frozen into `status` and `sentHeaders`;
later header mutations change only the live map and are never sent. -/
structure Writer where
  headers : List (String × String)
  wroteHeader : Bool
  status : Nat
  sentHeaders : List (String × String)
  body : String
deriving DecidableEq

/-- A fresh response writer (status defaults to 200 until written). -/
def Writer.init : Writer :=
  { headers := [], wroteHeader := false, status := 200, sentHeaders := [], body := "" }

/-- Embeds `w.Header().Set(k, v)`: mutate the live header map only. -/
def Writer.setHeader (w : Writer) (k v : String) : Writer :=
  { w with headers := assocSet k v w.headers }

/-- Embeds `w.WriteHeader(code)`: on the first call freeze the status and
the current headers; later calls are ignored. -/
def Writer.writeHeader (w : Writer) (code : Nat) : Writer :=
  if w.wroteHeader then w
  else { w with wroteHeader := true, status := code, sentHeaders := w.headers }

/-- Embeds `w.Write(s)`: an implicit `WriteHeader 200` if none happened
yet, then append to the body. -/
def Writer.write (w : Writer) (s : String) : Writer :=
  let w1 := if w.wroteHeader then w else w.writeHeader 200
  { w1 with body := w1.body ++ s }

/-- The configuration `main` resolves once at startup (the TLS file paths
play no part in any claim and are omitted). -/
structure Config where
  listenAddr : String
  healthFile : String
  maxAge : Int
  enableSystemd : Bool
  systemdUnit : String
  systemdTimeout : Int

/-- Embeds the configuration resolution at the top of `main`:
`getenv("LISTEN_ADDR", ":8443")`, `getenv("NEWT_HEALTH_FILE",
"/tmp/newt-healthy")`, `parseDurationEnv("MAX_AGE", 2*time.Minute)`,
`parseBoolEnv("CHECK_SYSTEMD", false)`, `getenv("SYSTEMD_UNIT", "newt")`,
`parseDurationEnv("SYSTEMD_TIMEOUT", time.Second)`. -/
def resolveConfig (env : Env) : Config :=
  { listenAddr := getenv env "LISTEN_ADDR" ":8443"
    healthFile := getenv env "NEWT_HEALTH_FILE" "/tmp/newt-healthy"
    maxAge := parseDurationEnv env "MAX_AGE" (2 * 60000000000)
    enableSystemd := parseBoolEnv env "CHECK_SYSTEMD" false
    systemdUnit := getenv env "SYSTEMD_UNIT" "newt"
    systemdTimeout := parseDurationEnv env "SYSTEMD_TIMEOUT" 1000000000 }

/-- The ambient world a poll observes: the filesystem, the current instant
(both as a number for age arithmetic and as its serialized form), and the
service manager. -/
structure World where
  fs : FileSystem
  now : Int
  nowStr : String
  systemd : SystemdWorld

/-- Embeds the `/healthz` handler from main.go, returning the final writer
state and the verdict it serialized: run the file check, optionally the
systemd check, AND the results, then `WriteHeader(200 or 503)`, then set
the content type (after the header write, as the source does), then encode
the body. -/
def healthzHandler (cfg : Config) (world : World) (w : Writer) : Writer × Result :=
  let fileRes := checkHealthFile world.fs world.now cfg.healthFile cfg.maxAge
  let checks1 := assocSet "newt_health_file" ⟨fileRes.1, fileRes.2⟩ ([] : List (String × CheckDetail))
  let step :=
    if cfg.enableSystemd then
      let sysRes := checkSystemd world.systemd cfg.systemdUnit cfg.systemdTimeout
      (assocSet "systemd" ⟨sysRes.1, sysRes.2⟩ checks1, fileRes.1 && sysRes.1)
    else (checks1, fileRes.1)
  let res : Result := { ok := step.2, now := world.nowStr, checks := step.1 }
  let w1 := if step.2 then w.writeHeader 200 else w.writeHeader 503
  let w2 := w1.setHeader "Content-Type" "application/json"
  let w3 := w2.write (encodeResult res)
  (w3, res)

/-- Embeds the `/` handler from main.go: status 200, body `ok`-newline. -/
def rootHandler (w : Writer) : Writer :=
  (w.writeHeader 200).write "ok\n"

/-- Embeds `pathMatch` from `net/http.ServeMux`: a pattern not ending in a
slash matches only the identical path; a pattern ending in a slash matches
every path it prefixes; the empty pattern matches nothing. -/
def pathMatch (pattern path : String) : Bool :=
  match pattern.toList.getLast? with
  | none => false
  | some c =>
    if c == '/' then pattern.toList.isPrefixOf path.toList
    else pattern == path

/-- The patterns main.go registers on its mux, in registration order. -/
def muxRegistered : List String := ["/healthz", "/"]

/-- Embeds `ServeMux` handler selection: the longest registered pattern
matching the path, if any. -/
def muxSelect (path : String) : Option String :=
  muxRegistered.foldl
    (fun best p =>
      if pathMatch p path then
        match best with
        | none => some p
        | some b => if b.length < p.length then some p else some b
      else best)
    none

/-- Dispatch one request through the mux on a fresh writer: the `/healthz`
handler, the root handler, or (when no pattern matches) the `net/http`
not-found handler with its fixed plain-text 404 body. -/
def serve (cfg : Config) (world : World) (path : String) : Writer :=
  match muxSelect path with
  | some p =>
    if p == "/healthz" then (healthzHandler cfg world Writer.init).1
    else rootHandler Writer.init
  | none =>
    let w := (Writer.init.setHeader "Content-Type" "text/plain; charset=utf-8").setHeader
      "X-Content-Type-Options" "nosniff"
    (w.writeHeader 404).write "404 page not found\n"

/-- The empty process environment: every variable unset. -/
def emptyEnv : Env := fun _ => ""

/-- A world where the marker file is missing and the unit is active. -/
def missingFileWorld : World :=
  { fs := fun _ => Except.error StatError.notExist, now := 0, nowStr := "t",
    systemd := fun _ _ => { runError := none, deadlineExceeded := false } }

/-- A service manager that reports the unit active. -/
def sysActive : SystemdWorld :=
  fun _ _ => { runError := none, deadlineExceeded := false }

/-- A service manager whose query is killed by the deadline. -/
def sysTimedOut : SystemdWorld :=
  fun _ _ => { runError := some "signal: killed", deadlineExceeded := true }

/-- A service manager that reports the unit inactive or absent. -/
def sysInactive : SystemdWorld :=
  fun _ _ => { runError := some "exit status 3", deadlineExceeded := false }

/-- An environment carrying a malformed MAX_AGE value. -/
def malformedEnv : Env := fun k => if k == "MAX_AGE" then "abc" else ""

/-- An environment setting MAX_AGE to zero. -/
def zeroMaxAgeEnv : Env := fun k => if k == "MAX_AGE" then "0" else ""

/-- A list is a Boolean prefix of itself followed by anything. -/
theorem isPrefixOf_append_self (l s : List Char) : l.isPrefixOf (l ++ s) = true := by
  induction l with
  | nil => simp [List.isPrefixOf]
  | cons c cs ih => simp [List.isPrefixOf, ih]

/-- The substring scan succeeds when the pattern is a prefix. -/
theorem subOccurs_of_isPrefixOf (pat l : List Char) (h : pat.isPrefixOf l = true) :
    subOccurs pat l = true := by
  cases l with
  | nil =>
    cases pat with
    | nil => rfl
    | cons c cs => simp [List.isPrefixOf] at h
  | cons c cs => simp [subOccurs, h]

/-- The substring scan finds a pattern placed in the middle of a list. -/
theorem subOccurs_middle (pre pat suf : List Char) :
    subOccurs pat (pre ++ (pat ++ suf)) = true := by
  induction pre with
  | nil => exact subOccurs_of_isPrefixOf pat (pat ++ suf) (isPrefixOf_append_self pat suf)
  | cons c cs ih => simp [subOccurs, ih]

/-- String append is associative. -/
theorem strAppend_assoc (a b c : String) : (a ++ b) ++ c = a ++ (b ++ c) := by
  rcases a with ⟨la⟩
  rcases b with ⟨lb⟩
  rcases c with ⟨lc⟩
  show String.mk ((la ++ lb) ++ lc) = String.mk (la ++ (lb ++ lc))
  rw [List.append_assoc]

/-- A string contains a substring placed in its middle. -/
theorem strContains_middle (pre pat suf : String) :
    strContains (pre ++ pat ++ suf) pat = true := by
  rcases pre with ⟨lpre⟩
  rcases pat with ⟨lpat⟩
  rcases suf with ⟨lsuf⟩
  show subOccurs lpat ((lpre ++ lpat) ++ lsuf) = true
  rw [List.append_assoc]
  exact subOccurs_middle lpre lpat lsuf

/-- Appending the empty string is the identity. -/
theorem strAppend_empty (s : String) : s ++ "" = s := by
  rcases s with ⟨l⟩
  show String.mk (l ++ []) = String.mk l
  rw [List.append_nil]

/-- C1: for every configuration and every outcome of the executed checks,
the healthz status is 200 iff every executed check is ok and 503
otherwise, the top-level ok of the serialized verdict is the conjunction
of the executed checks, and that ok matches the status. -/
theorem healthz_status_ok_conjunction (cfg : Config) (world : World) :
    ((healthzHandler cfg world Writer.init).1.status = 200
      ∨ (healthzHandler cfg world Writer.init).1.status = 503)
    ∧ ((healthzHandler cfg world Writer.init).1.status = 200
      ↔ (healthzHandler cfg world Writer.init).2.checks.all (fun e => e.2.ok) = true)
    ∧ ((healthzHandler cfg world Writer.init).2.ok
      = (healthzHandler cfg world Writer.init).2.checks.all (fun e => e.2.ok))
    ∧ ((healthzHandler cfg world Writer.init).2.ok = true
      ↔ (healthzHandler cfg world Writer.init).1.status = 200) := by
  simp only [healthzHandler]
  rcases hf : checkHealthFile world.fs world.now cfg.healthFile cfg.maxAge with ⟨okF, msgF⟩
  cases hs : cfg.enableSystemd
  · rcases okF <;>
      simp [hf, assocSet, Writer.writeHeader, Writer.init, Writer.setHeader, Writer.write,
        List.all]
  · rcases hy : checkSystemd world.systemd cfg.systemdUnit cfg.systemdTimeout with ⟨okS, msgS⟩
    rcases okF <;> rcases okS <;>
      simp [hf, hy, assocSet, Writer.writeHeader, Writer.init, Writer.setHeader, Writer.write,
        List.all]

/-- C4: on every healthz response the handler sets the JSON content type
only after writing the status header, so the sent headers never carry it
(the live header map does, but it was snapshotted empty), even though the
status header is indeed written before the body. -/
theorem healthz_content_type_header_dropped (cfg : Config) (world : World) :
    ((healthzHandler cfg world Writer.init).1.sentHeaders.lookup "Content-Type" = none)
    ∧ ((healthzHandler cfg world Writer.init).1.headers.lookup "Content-Type"
      = some "application/json")
    ∧ (healthzHandler cfg world Writer.init).1.wroteHeader = true := by
  simp only [healthzHandler]
  rcases hf : checkHealthFile world.fs world.now cfg.healthFile cfg.maxAge with ⟨okF, msgF⟩
  cases hs : cfg.enableSystemd
  · rcases okF <;>
      simp [hf, assocSet, Writer.writeHeader, Writer.init, Writer.setHeader, Writer.write,
        List.lookup]
  · rcases hy : checkSystemd world.systemd cfg.systemdUnit cfg.systemdTimeout with ⟨okS, msgS⟩
    rcases okF <;> rcases okS <;>
      simp [hf, hy, assocSet, Writer.writeHeader, Writer.init, Writer.setHeader, Writer.write,
        List.lookup]

/-- C8: with the systemd check disabled, the checks map has no systemd key,
the verdict is the marker-file result alone, the status follows it, and the
whole response is unaffected by the service-manager state. -/
theorem healthz_systemd_disabled_frame (cfg : Config) (world : World)
    (h : cfg.enableSystemd = false) :
    ((healthzHandler cfg world Writer.init).2.checks.lookup "systemd" = none)
    ∧ ((healthzHandler cfg world Writer.init).2.ok
      = (checkHealthFile world.fs world.now cfg.healthFile cfg.maxAge).1)
    ∧ ((healthzHandler cfg world Writer.init).1.status
      = if (checkHealthFile world.fs world.now cfg.healthFile cfg.maxAge).1 then 200 else 503)
    ∧ (∀ sys2 : SystemdWorld,
      healthzHandler cfg { world with systemd := sys2 } Writer.init
        = healthzHandler cfg world Writer.init) := by
  simp only [healthzHandler, h]
  rcases hf : checkHealthFile world.fs world.now cfg.healthFile cfg.maxAge with ⟨okF, msgF⟩
  rcases okF <;>
    simp [hf, assocSet, Writer.writeHeader, Writer.init, Writer.setHeader, Writer.write,
      List.lookup]

/-- C8 witness: with every variable unset the systemd check is disabled
and the missing marker alone decides the verdict. -/
theorem healthz_systemd_disabled_frame_witness :
    ((healthzHandler (resolveConfig emptyEnv) missingFileWorld Writer.init).2.checks.lookup
        "systemd" = none)
    ∧ ((healthzHandler (resolveConfig emptyEnv) missingFileWorld Writer.init).2.ok
      = (checkHealthFile missingFileWorld.fs missingFileWorld.now
          (resolveConfig emptyEnv).healthFile (resolveConfig emptyEnv).maxAge).1)
    ∧ ((healthzHandler (resolveConfig emptyEnv) missingFileWorld Writer.init).1.status
      = if (checkHealthFile missingFileWorld.fs missingFileWorld.now
          (resolveConfig emptyEnv).healthFile (resolveConfig emptyEnv).maxAge).1
        then 200 else 503) := by
  have h := healthz_systemd_disabled_frame (resolveConfig emptyEnv) missingFileWorld (by decide)
  exact ⟨h.1, h.2.1, h.2.2.1⟩

/-- C6: the marker-file check decides, in order: missing path, any other
stat error (carrying its text), directory, and otherwise success with
message present when the age check passes or is disabled. -/
theorem checkHealthFile_case_order (fs : FileSystem) (now : Int) (path : String) (maxAge : Int) :
    (fs path = Except.error StatError.notExist →
      checkHealthFile fs now path maxAge = (false, "health file missing"))
    ∧ (∀ e, fs path = Except.error (StatError.other e) →
      checkHealthFile fs now path maxAge = (false, "stat error: " ++ e))
    ∧ (∀ fi, fs path = Except.ok fi → fi.isDir = true →
      checkHealthFile fs now path maxAge = (false, "health file path is a directory"))
    ∧ (∀ fi, fs path = Except.ok fi → fi.isDir = false →
      (maxAge ≤ 0 ∨ now - fi.modTime ≤ maxAge) →
      checkHealthFile fs now path maxAge = (true, "present")) := by
  refine ⟨fun h => ?_, fun e h => ?_, fun fi h hdir => ?_, fun fi h hdir hage => ?_⟩
  · simp [checkHealthFile, h]
  · simp [checkHealthFile, h]
  · simp [checkHealthFile, h, hdir]
  · simp only [checkHealthFile, h, hdir, Bool.false_eq_true, if_false]
    split_ifs with h1 h2
    · exfalso
      rcases hage with hle | hle
      · omega
      · omega
    · rfl
    · rfl

/-- C6 witness: each of the four cases at a concrete input. -/
theorem checkHealthFile_case_order_witness :
    checkHealthFile (fun _ => Except.error StatError.notExist) 0 "/tmp/newt-healthy" 0
      = (false, "health file missing")
    ∧ checkHealthFile (fun _ => Except.error (StatError.other "permission denied")) 0
        "/tmp/newt-healthy" 0 = (false, "stat error: permission denied")
    ∧ checkHealthFile (fun _ => Except.ok ⟨true, 0⟩) 0 "/tmp/newt-healthy" 0
      = (false, "health file path is a directory")
    ∧ checkHealthFile (fun _ => Except.ok ⟨false, 0⟩) 5 "/tmp/newt-healthy" 0
      = (true, "present") :=
  ⟨(checkHealthFile_case_order _ 0 "/tmp/newt-healthy" 0).1 rfl,
   (checkHealthFile_case_order _ 0 "/tmp/newt-healthy" 0).2.1 "permission denied" rfl,
   (checkHealthFile_case_order _ 0 "/tmp/newt-healthy" 0).2.2.1 ⟨true, 0⟩ rfl rfl,
   (checkHealthFile_case_order _ 5 "/tmp/newt-healthy" 0).2.2.2 ⟨false, 0⟩ rfl rfl
     (Or.inl (by decide))⟩

/-- C7: the service-state check reports active on a zero exit code,
systemctl timeout when the run failed with the deadline exceeded, and the
single message not active on every other failure. -/
theorem checkSystemd_outcomes (world : SystemdWorld) (unit : String) (timeout : Int) :
    ((world unit timeout).runError = none →
      checkSystemd world unit timeout = (true, "active"))
    ∧ (∀ e, (world unit timeout).runError = some e →
      (world unit timeout).deadlineExceeded = true →
      checkSystemd world unit timeout = (false, "systemctl timeout"))
    ∧ (∀ e, (world unit timeout).runError = some e →
      (world unit timeout).deadlineExceeded = false →
      checkSystemd world unit timeout = (false, "not active")) := by
  refine ⟨fun h => ?_, fun e h hd => ?_, fun e h hd => ?_⟩ <;>
    simp [checkSystemd, h, *]

/-- C7 witness: the three outcomes at concrete service managers. -/
theorem checkSystemd_outcomes_witness :
    checkSystemd sysActive "newt" 1000000000 = (true, "active")
    ∧ checkSystemd sysTimedOut "newt" 1000000000 = (false, "systemctl timeout")
    ∧ checkSystemd sysInactive "newt" 1000000000 = (false, "not active") :=
  ⟨(checkSystemd_outcomes sysActive "newt" 1000000000).1 rfl,
   (checkSystemd_outcomes sysTimedOut "newt" 1000000000).2.1 "signal: killed" rfl rfl,
   (checkSystemd_outcomes sysInactive "newt" 1000000000).2.2 "exit status 3" rfl rfl⟩

/-- C2 counterexample: a stale regular file with threshold 1.5s produces
the message with the age rounded to 3s but the threshold printed as 1.5s;
the threshold rounded to whole seconds would be 2s, which the message does
not contain. -/
theorem checkHealthFile_threshold_not_rounded :
    (checkHealthFile (fun _ => Except.ok ⟨false, 0⟩) 2700000000 "/tmp/newt-healthy"
      1500000000).1 = false
    ∧ (checkHealthFile (fun _ => Except.ok ⟨false, 0⟩) 2700000000 "/tmp/newt-healthy"
      1500000000).2 = "health file too old: 3s > 1.5s"
    ∧ goDurationString (goRound 1500000000 nsPerSec) = "2s"
    ∧ strContains
        (checkHealthFile (fun _ => Except.ok ⟨false, 0⟩) 2700000000 "/tmp/newt-healthy"
          1500000000).2
        (goDurationString (goRound 1500000000 nsPerSec)) = false := by decide

/-- C2 amended: when the path is a regular file, the maximum age is
positive and the age exceeds it, the check fails with the message built
from the age rounded to whole seconds and the threshold formatted exactly
as configured (not rounded); the message contains both. -/
theorem checkHealthFile_too_old_message (fs : FileSystem) (now : Int) (path : String)
    (maxAge : Int) (fi : FileInfo) (hfs : fs path = Except.ok fi) (hdir : fi.isDir = false)
    (hpos : 0 < maxAge) (hage : maxAge < now - fi.modTime) :
    checkHealthFile fs now path maxAge
      = (false, "health file too old: "
          ++ goDurationString (goRound (now - fi.modTime) nsPerSec)
          ++ " > " ++ goDurationString maxAge)
    ∧ strContains (checkHealthFile fs now path maxAge).2
        (goDurationString (goRound (now - fi.modTime) nsPerSec)) = true
    ∧ strContains (checkHealthFile fs now path maxAge).2
        (goDurationString maxAge) = true := by
  have hmain : checkHealthFile fs now path maxAge
      = (false, "health file too old: "
          ++ goDurationString (goRound (now - fi.modTime) nsPerSec)
          ++ " > " ++ goDurationString maxAge) := by
    simp [checkHealthFile, hfs, hdir, hpos, hage]
  refine ⟨hmain, ?_, ?_⟩
  · rw [hmain]
    rw [show ("health file too old: "
          ++ goDurationString (goRound (now - fi.modTime) nsPerSec)
          ++ " > " ++ goDurationString maxAge)
        = "health file too old: " ++ goDurationString (goRound (now - fi.modTime) nsPerSec)
          ++ (" > " ++ goDurationString maxAge) from
      strAppend_assoc _ " > " (goDurationString maxAge)]
    exact strContains_middle "health file too old: "
      (goDurationString (goRound (now - fi.modTime) nsPerSec))
      (" > " ++ goDurationString maxAge)
  · rw [hmain]
    rw [show ("health file too old: "
          ++ goDurationString (goRound (now - fi.modTime) nsPerSec)
          ++ " > " ++ goDurationString maxAge)
        = ("health file too old: "
          ++ goDurationString (goRound (now - fi.modTime) nsPerSec)
          ++ " > " ++ goDurationString maxAge) ++ "" from
      (strAppend_empty _).symm]
    exact strContains_middle _ (goDurationString maxAge) ""

/-- C2 amended witness: the stale-file message at a concrete input. -/
theorem checkHealthFile_too_old_message_witness :
    checkHealthFile (fun _ => Except.ok ⟨false, 0⟩) 2700000000 "/run/newt/healthy" 1500000000
      = (false, "health file too old: "
          ++ goDurationString (goRound ((2700000000 : Int) - 0) nsPerSec)
          ++ " > " ++ goDurationString 1500000000) :=
  (checkHealthFile_too_old_message (fun _ => Except.ok ⟨false, 0⟩) 2700000000
    "/run/newt/healthy" 1500000000 ⟨false, 0⟩ rfl rfl (by decide) (by decide)).1

/-- C3 counterexample: a path that is neither healthz nor the root is
served by the catch-all root handler with status 200 and body ok, not by
the 404 not-found behavior. -/
theorem serve_unknown_path_not_404 :
    (serve (resolveConfig emptyEnv) missingFileWorld "/foo").status = 200
    ∧ (serve (resolveConfig emptyEnv) missingFileWorld "/foo").body = "ok\n"
    ∧ ¬ (serve (resolveConfig emptyEnv) missingFileWorld "/foo").status = 404 := by decide

/-- C3 amended: every request path other than /healthz (any rooted path,
including paths that are neither /healthz nor /) is matched by the
catch-all pattern and served by the root handler: status 200, body ok
newline; the default not-found behavior is never reached. -/
theorem serve_unknown_path_root (cfg : Config) (world : World) (path : String)
    (hroot : pathMatch "/" path = true) (hne : path ≠ "/healthz") :
    serve cfg world path = rootHandler Writer.init
    ∧ (serve cfg world path).status = 200
    ∧ (serve cfg world path).body = "ok\n" := by
  have h1 : pathMatch "/healthz" path = false := by
    have heq : pathMatch "/healthz" path = ("/healthz" == path) := rfl
    rw [heq]
    exact beq_eq_false_iff_ne.mpr (fun h => hne h.symm)
  have h2 : muxSelect path = some "/" := by
    simp [muxSelect, muxRegistered, List.foldl, h1, hroot]
  have h3 : serve cfg world path = rootHandler Writer.init := by
    unfold serve
    rw [h2]
    rfl
  refine ⟨h3, ?_, ?_⟩
  · rw [h3]
    rfl
  · rw [h3]
    rfl

/-- C3 amended witness: the metrics path is served by the root handler. -/
theorem serve_unknown_path_root_witness :
    serve (resolveConfig emptyEnv) missingFileWorld "/metrics" = rootHandler Writer.init
    ∧ (serve (resolveConfig emptyEnv) missingFileWorld "/metrics").status = 200
    ∧ (serve (resolveConfig emptyEnv) missingFileWorld "/metrics").body = "ok\n" :=
  serve_unknown_path_root (resolveConfig emptyEnv) missingFileWorld "/metrics"
    (by decide) (by decide)

/-- C5: with NEWT_HEALTH_FILE unset the marker path defaults to
/tmp/newt-healthy, not to the documented /run/newt/healthy. -/
theorem default_health_file_path :
    (resolveConfig emptyEnv).healthFile = "/tmp/newt-healthy"
    ∧ ¬ (resolveConfig emptyEnv).healthFile = "/run/newt/healthy" := by decide

/-- C9 counterexample: with MAX_AGE absent the resolved maximum age is the
two-minute default, and a regular marker file two minutes and one second
old fails the check, although the claim says an absent setting disables
the age check. -/
theorem maxAge_absent_not_disabled :
    (resolveConfig emptyEnv).maxAge = 120000000000
    ∧ (checkHealthFile (fun _ => Except.ok ⟨false, 0⟩) 121000000000 "/tmp/newt-healthy"
      (resolveConfig emptyEnv).maxAge).1 = false := by decide

/-- C9 amended: a configured maximum age of zero (MAX_AGE set to 0)
disables the age check: every existing regular file passes regardless of
its modification time; an absent MAX_AGE instead yields the two-minute
default. -/
theorem maxAge_zero_disables_age_check (env : Env) (fs : FileSystem) (now : Int)
    (path : String) (fi : FileInfo) (henv : env "MAX_AGE" = "0")
    (hfs : fs path = Except.ok fi) (hdir : fi.isDir = false) :
    checkHealthFile fs now path (resolveConfig env).maxAge = (true, "present") := by
  have hma : (resolveConfig env).maxAge = 0 := by
    show parseDurationEnv env "MAX_AGE" (2 * 60000000000) = 0
    unfold parseDurationEnv
    rw [henv]
    rfl
  rw [hma]
  simp [checkHealthFile, hfs, hdir]

/-- C9 amended witness: with MAX_AGE set to 0 an arbitrarily old regular
file passes. -/
theorem maxAge_zero_disables_age_check_witness :
    checkHealthFile (fun _ => Except.ok ⟨false, 0⟩) 999999999999999 "/tmp/newt-healthy"
      (resolveConfig zeroMaxAgeEnv).maxAge = (true, "present") :=
  maxAge_zero_disables_age_check zeroMaxAgeEnv (fun _ => Except.ok ⟨false, 0⟩)
    999999999999999 "/tmp/newt-healthy" ⟨false, 0⟩ rfl rfl rfl

/-- C10: a duration variable that is unset or fails to parse silently
yields the built-in default: two minutes for MAX_AGE and one second for
SYSTEMD_TIMEOUT. -/
theorem duration_env_defaults (env : Env) :
    ((env "MAX_AGE" = "" ∨ goParseDuration (env "MAX_AGE") = none) →
      (resolveConfig env).maxAge = 2 * 60000000000)
    ∧ ((env "SYSTEMD_TIMEOUT" = "" ∨ goParseDuration (env "SYSTEMD_TIMEOUT") = none) →
      (resolveConfig env).systemdTimeout = 1000000000) := by
  constructor
  · intro h
    show parseDurationEnv env "MAX_AGE" (2 * 60000000000) = 2 * 60000000000
    rcases h with h | h
    · simp [parseDurationEnv, h]
    · simp [parseDurationEnv, h]
  · intro h
    show parseDurationEnv env "SYSTEMD_TIMEOUT" 1000000000 = 1000000000
    rcases h with h | h
    · simp [parseDurationEnv, h]
    · simp [parseDurationEnv, h]

/-- C10 witness: a malformed MAX_AGE and an unset SYSTEMD_TIMEOUT both
yield the defaults. -/
theorem duration_env_defaults_witness :
    (resolveConfig malformedEnv).maxAge = 2 * 60000000000
    ∧ (resolveConfig malformedEnv).systemdTimeout = 1000000000 :=
  ⟨(duration_env_defaults malformedEnv).1 (Or.inr (by decide)),
   (duration_env_defaults malformedEnv).2 (Or.inl rfl)⟩

end PangLB
